import Mathlib

/-!
# devaintart deploy webhook (`webhook/main.go`)

A shallow embedding of the webhook server: the signature verifier
`verifySignature` and the request handler registered for `/webhook`,
together with executable models of the Go standard-library functions they
call (`strings`, `encoding/hex`, `crypto/subtle`, `crypto/sha256`,
`crypto/hmac`, `net/http`).

Go strings and byte slices are byte sequences, so both are `List UInt8` and
the conversions `[]byte(s)` and `string(b)` are the identity.  32-bit words
of SHA-256 are natural numbers reduced modulo `2^32`.
-/

namespace Webhook

/-- A Go `[]byte` or `string`: a finite sequence of bytes. -/
abbrev Bytes := List UInt8

/-- The bytes of a Go string literal (Go source text is UTF-8). -/
def str (s : String) : Bytes := s.toUTF8.data.toList

/-! ## package strings -/

namespace strings

/-- Go: `len(s) >= len(prefix) && s[:len(prefix)] == prefix`. -/
def HasPrefix (s pre : Bytes) : Bool :=
  decide (pre.length ≤ s.length) && decide (s.take pre.length = pre)

/-- Go: `if HasPrefix(s, prefix) { return s[len(prefix):] }; return s`. -/
def TrimPrefix (s pre : Bytes) : Bytes :=
  if HasPrefix s pre then s.drop pre.length else s

/-- Go `strings.Index`: the index of the first instance of `substr` in `s`,
or `-1` when there is none.  The second argument counts the bytes already
skipped. -/
def indexFrom : Nat → Bytes → Bytes → Int
  | i, [], substr => if substr = [] then (i : Int) else -1
  | i, c :: s, substr =>
    if HasPrefix (c :: s) substr then (i : Int) else indexFrom (i + 1) s substr

/-- Go: `strings.Index(s, substr)`. -/
def Index (s substr : Bytes) : Int := indexFrom 0 s substr

/-- Go: `return Index(s, substr) >= 0`. -/
def Contains (s substr : Bytes) : Bool := decide (0 ≤ Index s substr)

end strings

/-! ## package encoding/hex -/

namespace hex

/-- Go: `const hextable = "0123456789abcdef"`. -/
def hextable : Bytes := str "0123456789abcdef"

/-- Go `hex.Encode`: `dst[j] = hextable[v>>4]; dst[j+1] = hextable[v&0x0f]`
for every source byte `v`. -/
def Encode : Bytes → Bytes
  | [] => []
  | v :: src =>
    hextable.getD (v.toNat >>> 4) 0 :: hextable.getD (v.toNat &&& 0x0f) 0 :: Encode src

/-- Go: `hex.EncodeToString(src)`. -/
def EncodeToString (src : Bytes) : Bytes := Encode src

end hex

/-! ## package crypto/subtle -/

namespace subtle

/-- Go: `return int((uint32(x^y) - 1) >> 31)`; the subtraction wraps modulo
`2^32`. -/
def ConstantTimeByteEq (x y : Nat) : Nat :=
  (((x ^^^ y) % 2 ^ 32 + 2 ^ 32 - 1) % 2 ^ 32) >>> 31

/-- The loop `for i := 0; i < len(x); i++ { v |= x[i] ^ y[i] }` of
`ConstantTimeCompare`, over two slices of equal length. -/
def orXor : Nat → Bytes → Bytes → Nat
  | v, a :: x, b :: y => orXor (v ||| (a.toNat ^^^ b.toNat)) x y
  | v, _, _ => v

/-- Go `subtle.ConstantTimeCompare`: `1` when the two slices have equal
contents, `0` otherwise, and `0` at once when the lengths differ. -/
def ConstantTimeCompare (x y : Bytes) : Nat :=
  if x.length ≠ y.length then 0
  else ConstantTimeByteEq (orXor 0 x y) 0

end subtle

/-! ## package crypto/sha256 -/

namespace sha256

/-- The round constants of SHA-256 (Go: `var _K`). -/
def _K : List Nat := [
  0x428a2f98, 0x71374491, 0xb5c0fbcf, 0xe9b5dba5, 0x3956c25b, 0x59f111f1, 0x923f82a4, 0xab1c5ed5,
  0xd807aa98, 0x12835b01, 0x243185be, 0x550c7dc3, 0x72be5d74, 0x80deb1fe, 0x9bdc06a7, 0xc19bf174,
  0xe49b69c1, 0xefbe4786, 0x0fc19dc6, 0x240ca1cc, 0x2de92c6f, 0x4a7484aa, 0x5cb0a9dc, 0x76f988da,
  0x983e5152, 0xa831c66d, 0xb00327c8, 0xbf597fc7, 0xc6e00bf3, 0xd5a79147, 0x06ca6351, 0x14292967,
  0x27b70a85, 0x2e1b2138, 0x4d2c6dfc, 0x53380d13, 0x650a7354, 0x766a0abb, 0x81c2c92e, 0x92722c85,
  0xa2bfe8a1, 0xa81a664b, 0xc24b8b70, 0xc76c51a3, 0xd192e819, 0xd6990624, 0xf40e3585, 0x106aa070,
  0x19a4c116, 0x1e376c08, 0x2748774c, 0x34b0bcb5, 0x391c0cb3, 0x4ed8aa4a, 0x5b9cca4f, 0x682e6ff3,
  0x748f82ee, 0x78a5636f, 0x84c87814, 0x8cc70208, 0x90befffa, 0xa4506ceb, 0xbef9a3f7, 0xc67178f2]

/-- Go: `bits.RotateLeft32(x, -n)`, a right rotation of a 32-bit word. -/
def rotr (x n : Nat) : Nat := ((x >>> n) ||| (x <<< (32 - n))) % 2 ^ 32

/-- The eight chaining words `h0 .. h7` (also the working variables
`a .. h` of a block). -/
structure State where
  a : Nat
  b : Nat
  c : Nat
  d : Nat
  e : Nat
  f : Nat
  g : Nat
  h : Nat
deriving DecidableEq

/-- The initial chaining value (Go: `init0 .. init7`). -/
def init : State :=
  ⟨0x6a09e667, 0xbb67ae85, 0x3c6ef372, 0xa54ff53a, 0x510e527f, 0x9b05688c, 0x1f83d9ab, 0x5be0cd19⟩

/-- The first sixteen schedule words: big-endian 32-bit words of the block. -/
def be32 : Bytes → List Nat
  | b0 :: b1 :: b2 :: b3 :: rest =>
    (b0.toNat <<< 24 ||| b1.toNat <<< 16 ||| b2.toNat <<< 8 ||| b3.toNat) :: be32 rest
  | _ => []

/-- The schedule words `w[16] ..`: the argument list holds the previous
sixteen words, oldest first.
Go: `w[i] = t1 + w[i-7] + t2 + w[i-16]` with `t1` from `w[i-2]` and `t2`
from `w[i-15]`. -/
def schedule : Nat → List Nat → List Nat
  | 0, _ => []
  | _, [] => []
  | n + 1, w0 :: rest =>
    let v1 := rest.getD 13 0
    let t1 := rotr v1 17 ^^^ rotr v1 19 ^^^ (v1 >>> 10)
    let v2 := rest.getD 0 0
    let t2 := rotr v2 7 ^^^ rotr v2 18 ^^^ (v2 >>> 3)
    let wi := (t1 + rest.getD 8 0 + t2 + w0) % 2 ^ 32
    wi :: schedule n (rest ++ [wi])

/-- One of the 64 rounds of the compression function. -/
def round (s : State) (k w : Nat) : State :=
  let t1 := (s.h + (rotr s.e 6 ^^^ rotr s.e 11 ^^^ rotr s.e 25)
    + ((s.e &&& s.f) ^^^ ((s.e ^^^ 0xffffffff) &&& s.g)) + k + w) % 2 ^ 32
  let t2 := ((rotr s.a 2 ^^^ rotr s.a 13 ^^^ rotr s.a 22)
    + ((s.a &&& s.b) ^^^ (s.a &&& s.c) ^^^ (s.b &&& s.c))) % 2 ^ 32
  ⟨(t1 + t2) % 2 ^ 32, s.a, s.b, s.c, (s.d + t1) % 2 ^ 32, s.e, s.f, s.g⟩

/-- The round loop `for i := 0; i < 64; i++`. -/
def rounds : State → List Nat → List Nat → State
  | s, k :: ks, w :: ws => rounds (round s k w) ks ws
  | s, _, _ => s

/-- Go `blockGeneric` on one 64-byte chunk. -/
def block (s : State) (p : Bytes) : State :=
  let w16 := be32 p
  let t := rounds s _K (w16 ++ schedule 48 w16)
  ⟨(s.a + t.a) % 2 ^ 32, (s.b + t.b) % 2 ^ 32, (s.c + t.c) % 2 ^ 32, (s.d + t.d) % 2 ^ 32,
   (s.e + t.e) % 2 ^ 32, (s.f + t.f) % 2 ^ 32, (s.g + t.g) % 2 ^ 32, (s.h + t.h) % 2 ^ 32⟩

/-- Go `blockGeneric`: `for len(p) >= chunk { ...; p = p[chunk:] }`; the
first argument bounds the number of chunks. -/
def blocks : Nat → State → Bytes → State
  | 0, s, _ => s
  | n + 1, s, p => blocks n (block s (p.take 64)) (p.drop 64)

/-- The `k` low bytes of `n`, most significant first. -/
def putBE (n : Nat) : Nat → Bytes
  | 0 => []
  | k + 1 => UInt8.ofNat ((n >>> (8 * k)) % 256) :: putBE n k

/-- The padding of `checkSum`: `0x80`, zeros up to 56 modulo 64, then the
message length in bits as a 64-bit big-endian number (`len << 3` wraps
modulo `2^64`). -/
def padding (len : Nat) : Bytes :=
  let t := if len % 64 < 56 then 56 - len % 64 else 64 + 56 - len % 64
  (0x80 :: List.replicate (t - 1) 0) ++ putBE ((len * 8) % 2 ^ 64) 8

/-- Go: `sha256.Sum256(data)`, the SHA-256 digest of `data`. -/
def Sum256 (data : Bytes) : Bytes :=
  let p := data ++ padding data.length
  let s := blocks (p.length / 64) init p
  putBE s.a 4 ++ putBE s.b 4 ++ putBE s.c 4 ++ putBE s.d 4
    ++ putBE s.e 4 ++ putBE s.f 4 ++ putBE s.g 4 ++ putBE s.h 4

end sha256

/-! ## package hash -/

namespace hash

/-- A `hash.Hash` object: the algorithm (block size and digest function)
and the bytes written into it so far. -/
structure Hash where
  BlockSize : Nat
  checkSum : Bytes → Bytes
  written : Bytes

/-- Go: `h.Write(p)` appends `p` to the running input. -/
def Hash.Write (h : Hash) (p : Bytes) : Hash := { h with written := h.written ++ p }

/-- Go: `h.Sum(b)` appends the digest of the input so far to `b`. -/
def Hash.Sum (h : Hash) (b : Bytes) : Bytes := b ++ h.checkSum h.written

/-- Go: `h.Reset()`. -/
def Hash.Reset (h : Hash) : Hash := { h with written := [] }

end hash

/-- Go: `sha256.New()`. -/
def sha256.New : hash.Hash := ⟨64, sha256.Sum256, []⟩

/-! ## package crypto/hmac -/

namespace hmac

/-- Go: `type hmac struct { opad, ipad []byte; outer, inner hash.Hash }`. -/
structure HMAC where
  opad : Bytes
  ipad : Bytes
  outer : hash.Hash
  inner : hash.Hash

/-- Go `copy(pad, key)` into a zeroed slice of `blocksize` bytes, followed
by `pad[i] ^= x` for every index. -/
def xorPad (blocksize : Nat) (key : Bytes) (x : UInt8) : Bytes :=
  ((key ++ List.replicate (blocksize - key.length) 0).take blocksize).map (fun b => b ^^^ x)

/-- Go: `hmac.New(h, key)`, with `h` the hash that the constructor returns.
A key longer than the block size is first hashed with the outer hash
(`hm.outer.Write(key); key = hm.outer.Sum(nil)`); the inner hash starts with
`ipad` written. -/
def New (h : hash.Hash) (key : Bytes) : HMAC :=
  let blocksize := h.BlockSize
  let outer := if key.length > blocksize then h.Write key else h
  let key := if key.length > blocksize then outer.Sum [] else key
  let ipad := xorPad blocksize key 0x36
  let opad := xorPad blocksize key 0x5c
  { opad := opad, ipad := ipad, outer := outer, inner := h.Write ipad }

/-- Go: `mac.Write(p)` writes to the inner hash. -/
def HMAC.Write (m : HMAC) (p : Bytes) : HMAC := { m with inner := m.inner.Write p }

/-- Go: `mac.Sum(in)`: the inner digest is hashed again after `opad`. -/
def HMAC.Sum (m : HMAC) (b : Bytes) : Bytes :=
  let origLen := b.length
  let b1 := m.inner.Sum b
  let outer := (m.outer.Reset.Write m.opad).Write (b1.drop origLen)
  outer.Sum (b1.take origLen)

/-- Go: `hmac.Equal(mac1, mac2)`:
`subtle.ConstantTimeCompare(mac1, mac2) == 1`. -/
def Equal (mac1 mac2 : Bytes) : Bool := subtle.ConstantTimeCompare mac1 mac2 == 1

end hmac

/-! ## main.go -/

/-- Go: `func verifySignature(payload []byte, signature, secret string) bool`. -/
def verifySignature (payload signature secret : Bytes) : Bool :=
  if !strings.HasPrefix signature (str "sha256=") then
    false
  else
    let sig := strings.TrimPrefix signature (str "sha256=")
    let mac := hmac.New sha256.New secret
    let mac := mac.Write payload
    let expected := hex.EncodeToString (mac.Sum [])
    hmac.Equal sig expected

/-! ## package net/textproto -/

namespace textproto

/-- Go `validHeaderFieldByte`: letters, digits and the other token
characters of RFC 7230. -/
def validHeaderFieldByte (c : UInt8) : Bool :=
  (48 ≤ c.toNat && c.toNat ≤ 57) || (97 ≤ c.toNat && c.toNat ≤ 122)
    || (65 ≤ c.toNat && c.toNat ≤ 90) || (str "!#$%&'*+-.^_`|~").contains c

/-- The canonicalising loop of `canonicalMIMEHeaderKey`: upper case for the
first letter and for a letter after a dash, lower case elsewhere
(`toLower = 'a' - 'A'`). -/
def canonLoop : Bool → Bytes → Bytes
  | _, [] => []
  | upper, c :: a =>
    let c1 : UInt8 :=
      if upper && (97 ≤ c.toNat && c.toNat ≤ 122) then UInt8.ofNat (c.toNat - 32)
      else if !upper && (65 ≤ c.toNat && c.toNat ≤ 90) then UInt8.ofNat (c.toNat + 32)
      else c
    c1 :: canonLoop (c1 == 45) a

/-- Go: `textproto.CanonicalMIMEHeaderKey(s)`; a key holding a byte that is
not a token character is returned unchanged. -/
def CanonicalMIMEHeaderKey (s : Bytes) : Bytes :=
  if s.all validHeaderFieldByte then canonLoop true s else s

end textproto

/-! ## package io -/

namespace io

/-- A reader seen from `io.ReadAll`: the bytes it yields before end of file
or before its first error, and that error (`none` for a clean end). -/
structure Reader where
  data : Bytes
  err : Option String

/-- Go: `io.ReadAll(r)` returns the data read and the error met, if any. -/
def ReadAll (r : Reader) : Bytes × Option String := (r.data, r.err)

end io

/-! ## package os/exec -/

namespace exec

/-- Go: `exec.Cmd`, the fields `Path` and `Args`. -/
structure Cmd where
  Path : Bytes
  Args : List Bytes
deriving DecidableEq

/-- Go: `exec.Command(name)` with no arguments. -/
def Command (name : Bytes) : Cmd := ⟨name, [name]⟩

end exec

/-! ## package net/http -/

namespace http

/-- Go: `type Header map[string][]string`, as an association list whose
keys are in canonical form. -/
abbrev Header := List (Bytes × List Bytes)

/-- Go: `h.Get(key)`: the first value stored under the canonical form of
`key`, or the empty string. -/
def Header.Get (h : Header) (key : Bytes) : Bytes :=
  match h.lookup (textproto.CanonicalMIMEHeaderKey key) with
  | some (v :: _) => v
  | _ => []

/-- Go: `h.Del(key)`. -/
def Header.Del (h : Header) (key : Bytes) : Header :=
  h.filter (fun kv => kv.1 != textproto.CanonicalMIMEHeaderKey key)

/-- Go: `h.Set(key, value)`. -/
def Header.Set (h : Header) (key value : Bytes) : Header :=
  (textproto.CanonicalMIMEHeaderKey key, [value]) :: Header.Del h key

/-- The parts of `http.Request` the handler reads. -/
structure Request where
  Method : Bytes
  Header : Header
  Body : io.Reader

/-- The state behind an `http.ResponseWriter`: the response header map,
whether the status line has been written, the status code and the body
written so far. -/
structure ResponseWriter where
  header : Header
  wroteHeader : Bool
  status : Nat
  body : Bytes

/-- The writer a handler is called with: nothing written yet. -/
def ResponseWriter.fresh : ResponseWriter := ⟨[], false, 0, []⟩

/-- Go: `w.WriteHeader(code)`; only the first call sets the status. -/
def ResponseWriter.WriteHeader (w : ResponseWriter) (code : Nat) : ResponseWriter :=
  if w.wroteHeader then w else { w with wroteHeader := true, status := code }

/-- Go: `w.Write(p)`; writes status 200 first when no status was written. -/
def ResponseWriter.Write (w : ResponseWriter) (p : Bytes) : ResponseWriter :=
  let w1 := if w.wroteHeader then w else w.WriteHeader 200
  { w1 with body := w1.body ++ p }

def StatusOK : Nat := 200
def StatusBadRequest : Nat := 400
def StatusUnauthorized : Nat := 401
def StatusMethodNotAllowed : Nat := 405

/-- Go: `http.Error(w, error, code)`: plain-text headers, the status code,
then `fmt.Fprintln(w, error)`. -/
def Error (w : ResponseWriter) (error : Bytes) (code : Nat) : ResponseWriter :=
  let h := Header.Del w.header (str "Content-Length")
  let h := Header.Set h (str "Content-Type") (str "text/plain; charset=utf-8")
  let h := Header.Set h (str "X-Content-Type-Options") (str "nosniff")
  let w := { w with header := h }
  let w := w.WriteHeader code
  w.Write (error ++ str "\n")

end http

/-! ## main.go: the handler of `/webhook` -/

/-- What a handler does besides writing the response: a line handed to
`log.Println`, or a goroutine started with `go` that runs a command. -/
inductive Effect where
  | log (line : Bytes)
  | go (cmd : exec.Cmd)
deriving DecidableEq

/-- The commands launched in the background, in order. -/
def launched : List Effect → List exec.Cmd
  | [] => []
  | Effect.go cmd :: es => cmd :: launched es
  | Effect.log _ :: es => launched es

/-- Go: the path given to `exec.Command` in the deploy goroutine. -/
def deployScript : Bytes := str "/home/dorkitude/a/dev/devaintart/deploy.sh"

/-- Go: the raw string literal searched for in the body. -/
def mainRefMarker : Bytes := str "\"ref\":\"refs/heads/main\""

/-- Go: the function literal that `main` registers with
`http.HandleFunc("/webhook", ...)`; `secret` is the variable it captures.
Returns the final state of `w` and the effects in program order. -/
def webhookHandler (secret : Bytes) (w : http.ResponseWriter) (r : http.Request) :
    http.ResponseWriter × List Effect :=
  if r.Method != str "POST" then
    (http.Error w (str "Method not allowed") http.StatusMethodNotAllowed, [])
  else
    -- Read body
    let (body, err) := io.ReadAll r.Body
    if err.isSome then
      (http.Error w (str "Failed to read body") http.StatusBadRequest, [])
    else
      -- Verify signature
      let signature := r.Header.Get (str "X-Hub-Signature-256")
      if !verifySignature body signature secret then
        (http.Error w (str "Invalid signature") http.StatusUnauthorized,
          [Effect.log (str "Invalid signature")])
      else
        -- Check if it's a push to main
        let ref := r.Header.Get (str "X-GitHub-Event")
        if ref != str "push" then
          ((w.WriteHeader http.StatusOK).Write (str "Ignored: not a push event"), [])
        else if !strings.Contains body mainRefMarker then
          ((w.WriteHeader http.StatusOK).Write (str "Ignored: not main branch"), [])
        else
          ((w.WriteHeader http.StatusOK).Write (str "Deploying..."),
            [Effect.log (str "Received push to main, deploying..."),
             Effect.go (exec.Command deployScript)])

/-- Go: the function literal registered for `/health`. -/
def healthHandler (w : http.ResponseWriter) (_r : http.Request) : http.ResponseWriter :=
  (w.WriteHeader http.StatusOK).Write (str "OK")

/-! ## Reference notions for the statements -/

/-- The lowercase hexadecimal digit of a value below 16: `0 .. 9`, then
`a .. f`. -/
def lowerHexDigit (n : Nat) : UInt8 :=
  if n < 10 then UInt8.ofNat (48 + n) else UInt8.ofNat (97 + (n - 10))

/-- Lowercase hex encoding of a byte string: two digits per byte, the high
half first. -/
def lowerHex : Bytes → Bytes
  | [] => []
  | v :: bs => lowerHexDigit (v.toNat / 16) :: lowerHexDigit (v.toNat % 16) :: lowerHex bs

/-- The uppercase hexadecimal digit of a value below 16: `0 .. 9`, then
`A .. F`. -/
def upperHexDigit (n : Nat) : UInt8 :=
  if n < 10 then UInt8.ofNat (48 + n) else UInt8.ofNat (65 + (n - 10))

/-- Uppercase hex encoding of a byte string. -/
def upperHex : Bytes → Bytes
  | [] => []
  | v :: bs => upperHexDigit (v.toNat / 16) :: upperHexDigit (v.toNat % 16) :: upperHex bs

/-- HMAC-SHA256 as RFC 2104 states it:
`H((K0 xor opad) ++ H((K0 xor ipad) ++ text))`, where `K0` is the key
(its SHA-256 digest when it is longer than the 64-byte block) padded with
zeros to 64 bytes, `ipad` is the byte `0x36` and `opad` the byte `0x5c`. -/
def HMAC_SHA256 (key text : Bytes) : Bytes :=
  let k := if 64 < key.length then sha256.Sum256 key else key
  let k0 := k ++ List.replicate (64 - k.length) 0
  sha256.Sum256 (k0.map (fun b => b ^^^ 0x5c)
    ++ sha256.Sum256 (k0.map (fun b => b ^^^ 0x36) ++ text))

/-- The header value that signs `payload` under `secret`:
`"sha256="` followed by the lowercase hex of the HMAC-SHA256. -/
def expectedSignature (secret payload : Bytes) : Bytes :=
  str "sha256=" ++ lowerHex (HMAC_SHA256 secret payload)

/-! ## Example requests -/

/-- The secret of the specification's example. -/
def exampleSecret : Bytes := str "testsecret"

/-- A request whose body was read without error; the header keys are in
the canonical form the server stores them under. -/
def postRequest (method : Bytes) (signature event : Bytes) (body : Bytes) : http.Request :=
  { Method := method,
    Header := [(str "X-Hub-Signature-256", [signature]), (str "X-Github-Event", [event])],
    Body := ⟨body, none⟩ }

/-- The body of the specification's example. -/
def mainBody : Bytes := str "\x7b\"ref\":\"refs/heads/main\"\x7d"

/-- The signature of `mainBody` under `exampleSecret`. -/
def mainSignature : Bytes :=
  str "sha256=28146b03dff028de76db9565906717f0f852df1018420b32f14c65c9372b5f0a"

/-- The specification's example: a signed push to main. -/
def mainPush : http.Request := postRequest (str "POST") mainSignature (str "push") mainBody

/-- A push to `dev` whose payload mentions main in a nested field. -/
def nestedBody : Bytes :=
  str "\x7b\"ref\":\"refs/heads/dev\",\"base\":\x7b\"ref\":\"refs/heads/main\"\x7d\x7d"

/-- The signature of `nestedBody` under `exampleSecret`. -/
def nestedSignature : Bytes :=
  str "sha256=b8e22f85415278b9109c6ea220d905181b0c83d8f127ec4f8ba485c9f2d538b1"

/-- A push to the branch `mainline`. -/
def mainlineBody : Bytes := str "\x7b\"ref\":\"refs/heads/mainline\"\x7d"

/-- The signature of `mainlineBody` under `exampleSecret`. -/
def mainlineSignature : Bytes :=
  str "sha256=324a126931b60294e7fcfcbc99afda613cee9ac5f7448a0d42fbf10e2e0a4a8f"

/-- A push to main written with a space after the colon. -/
def spacedBody : Bytes := str "\x7b\"ref\": \"refs/heads/main\"\x7d"

/-- The signature of `spacedBody` under `exampleSecret`. -/
def spacedSignature : Bytes :=
  str "sha256=379427676af09b44410daa62d615b457bd16b6dd2131c728b77d3711f21d60f6"

/-- A signed request for main that carries no `X-GitHub-Event` header. -/
def noEventRequest : http.Request :=
  { Method := str "POST",
    Header := [(str "X-Hub-Signature-256", [mainSignature])],
    Body := ⟨mainBody, none⟩ }

/-- A request for main that carries no signature header. -/
def unsignedRequest : http.Request :=
  { Method := str "POST",
    Header := [(str "X-Github-Event", [str "push"])],
    Body := ⟨mainBody, none⟩ }

/-- The push of `nestedBody`, correctly signed. -/
def nestedPush : http.Request :=
  postRequest (str "POST") nestedSignature (str "push") nestedBody

/-- The signed push to main, sent with `GET`. -/
def getRequest : http.Request := postRequest (str "GET") mainSignature (str "push") mainBody

/-- The signed push to main, declared as event `Push`. -/
def capitalisedEvent : http.Request :=
  postRequest (str "POST") mainSignature (str "Push") mainBody

/-- The push to main carrying the signature of another body. -/
def wrongSignature : http.Request :=
  postRequest (str "POST") mainlineSignature (str "push") mainBody

/-- The signed push to main declared as event `Push`, whose body reader
delivers the whole signed body and then reports an error. -/
def brokenReadEvent : http.Request :=
  { Method := str "POST",
    Header := [(str "X-Hub-Signature-256", [mainSignature]), (str "X-Github-Event", [str "Push"])],
    Body := ⟨mainBody, some "unexpected EOF"⟩ }

/-- The signed push to `mainline`, whose body reader delivers the whole
signed body and then reports an error. -/
def brokenReadBranch : http.Request :=
  { Method := str "POST",
    Header := [(str "X-Hub-Signature-256", [mainlineSignature]),
      (str "X-Github-Event", [str "push"])],
    Body := ⟨mainlineBody, some "unexpected EOF"⟩ }

/-! ## Facts about the library models -/

/-- The seven bytes of the literal `sha256=`. -/
theorem str_sha256 : str "sha256=" = [115, 104, 97, 50, 53, 54, 61] := by decide

/-- The bytes of the literal `push`. -/
theorem str_push : str "push" = [112, 117, 115, 104] := by decide

/-- The bytes of the literal `POST`. -/
theorem str_POST : str "POST" = [80, 79, 83, 84] := by decide

/-- Go `strings.HasPrefix` decides the initial-segment relation. -/
theorem HasPrefix_iff (s pre : Bytes) : strings.HasPrefix s pre = true ↔ pre <+: s := by
  unfold strings.HasPrefix
  simp only [Bool.and_eq_true, decide_eq_true_eq]
  constructor
  · rintro ⟨_, h⟩
    rw [List.prefix_iff_eq_take]
    exact h.symm
  · intro h
    exact ⟨h.length_le, (List.prefix_iff_eq_take.mp h).symm⟩

/-- A string starts with what it was built from. -/
theorem HasPrefix_append (pre t : Bytes) : strings.HasPrefix (pre ++ t) pre = true :=
  (HasPrefix_iff _ _).mpr (List.prefix_append pre t)

/-- Go `strings.TrimPrefix` removes a leading `pre`. -/
theorem TrimPrefix_append (pre t : Bytes) : strings.TrimPrefix (pre ++ t) pre = t := by
  unfold strings.TrimPrefix
  rw [if_pos (HasPrefix_append pre t)]
  simp

/-- The search finds an index exactly when `sub` occurs in `s` as a contiguous
block. -/
theorem indexFrom_nonneg_iff (sub : Bytes) :
    ∀ (s : Bytes) (i : Nat), 0 ≤ strings.indexFrom i s sub ↔ sub <:+: s := by
  intro s
  induction s with
  | nil =>
    intro i
    unfold strings.indexFrom
    by_cases h : sub = []
    · simp [h]
    · simp [h]
  | cons c s ih =>
    intro i
    unfold strings.indexFrom
    by_cases h : strings.HasPrefix (c :: s) sub = true
    · rw [if_pos h]
      have hp := (HasPrefix_iff _ _).mp h
      simp [hp.isInfix]
    · rw [if_neg h, ih (i + 1), List.infix_cons_iff]
      have hp : ¬ sub <+: c :: s := fun hp => h ((HasPrefix_iff _ _).mpr hp)
      simp [hp]

/-- Go `strings.Contains` decides the contiguous-sublist relation. -/
theorem Contains_iff (s sub : Bytes) : strings.Contains s sub = true ↔ sub <:+: s := by
  unfold strings.Contains strings.Index
  rw [decide_eq_true_eq]
  exact indexFrom_nonneg_iff sub s 0

/-- A bitwise or is zero only when both operands are. -/
theorem or_eq_zero_iff (a b : Nat) : a ||| b = 0 ↔ a = 0 ∧ b = 0 := by
  constructor
  · intro h
    have hbit : ∀ i, a.testBit i = false ∧ b.testBit i = false := by
      intro i
      have := congrArg (fun n => Nat.testBit n i) h
      simpa [Nat.testBit_or] using this
    exact ⟨Nat.eq_of_testBit_eq (fun i => by simp [(hbit i).1]),
      Nat.eq_of_testBit_eq (fun i => by simp [(hbit i).2])⟩
  · rintro ⟨rfl, rfl⟩
    rfl

/-- The accumulator of the comparison loop stays a byte. -/
theorem orXor_lt : ∀ (x y : Bytes) (v : Nat), v < 2 ^ 8 → subtle.orXor v x y < 2 ^ 8
  | [], _, v, hv => by unfold subtle.orXor; exact hv
  | _ :: _, [], v, hv => by unfold subtle.orXor; exact hv
  | a :: x, b :: y, v, hv => by
    unfold subtle.orXor
    exact orXor_lt x y _
      (Nat.or_lt_two_pow hv (Nat.xor_lt_two_pow (UInt8.toNat_lt a) (UInt8.toNat_lt b)))

/-- On slices of equal length the accumulator ends at zero exactly when it
started at zero and the slices are equal. -/
theorem orXor_eq_zero_iff : ∀ (x y : Bytes) (v : Nat), x.length = y.length →
    (subtle.orXor v x y = 0 ↔ v = 0 ∧ x = y)
  | [], [], v, _ => by unfold subtle.orXor; simp
  | [], _ :: _, v, h => by simp at h
  | _ :: _, [], v, h => by simp at h
  | a :: x, b :: y, v, h => by
    unfold subtle.orXor
    have hl : x.length = y.length := by simpa using h
    rw [orXor_eq_zero_iff x y _ hl, or_eq_zero_iff, Nat.xor_eq_zero]
    constructor
    · rintro ⟨⟨hv, hab⟩, hxy⟩
      exact ⟨hv, by rw [UInt8.ext hab, hxy]⟩
    · rintro ⟨hv, hxy⟩
      injection hxy with h1 h2
      exact ⟨⟨hv, by rw [h1]⟩, h2⟩

/-- The value `ConstantTimeByteEq v 0` is `1` exactly for the byte `0`. -/
theorem ConstantTimeByteEq_zero (v : Nat) (hv : v < 2 ^ 8) :
    subtle.ConstantTimeByteEq v 0 = 1 ↔ v = 0 := by
  unfold subtle.ConstantTimeByteEq
  rw [Nat.xor_zero, Nat.shiftRight_eq_div_pow]
  constructor
  · intro h
    by_contra hne
    have h1 : v % 2 ^ 32 = v := Nat.mod_eq_of_lt (by omega)
    rw [h1] at h
    have h2 : (v + 2 ^ 32 - 1) % 2 ^ 32 = v - 1 := by omega
    rw [h2] at h
    omega
  · rintro rfl
    decide

/-- Go `hmac.Equal` is equality of byte strings. -/
theorem Equal_iff (x y : Bytes) : hmac.Equal x y = true ↔ x = y := by
  unfold hmac.Equal subtle.ConstantTimeCompare
  by_cases hl : x.length = y.length
  · rw [if_neg (not_not.mpr hl), beq_iff_eq,
      ConstantTimeByteEq_zero _ (orXor_lt x y 0 (by decide)), orXor_eq_zero_iff x y 0 hl]
    simp
  · rw [if_pos hl]
    constructor
    · intro h
      simp at h
    · intro h
      exact absurd (congrArg List.length h) hl


/-- Big-endian output has the requested number of bytes. -/
theorem putBE_length (n : Nat) : ∀ k, (sha256.putBE n k).length = k
  | 0 => rfl
  | k + 1 => by unfold sha256.putBE; simp [putBE_length n k]

/-- A SHA-256 digest has 32 bytes. -/
theorem Sum256_length (data : Bytes) : (sha256.Sum256 data).length = 32 := by
  unfold sha256.Sum256
  simp only [List.length_append, putBE_length]

/-- The table of `encoding/hex` holds the lowercase digits. -/
theorem hextable_getD : ∀ n, n < 16 → hex.hextable.getD n 0 = lowerHexDigit n := by
  decide

/-- Go `hex.EncodeToString` is the lowercase hex encoding. -/
theorem Encode_eq_lowerHex : ∀ b : Bytes, hex.EncodeToString b = lowerHex b
  | [] => rfl
  | v :: bs => by
    have ih := Encode_eq_lowerHex bs
    unfold hex.EncodeToString at ih ⊢
    unfold hex.Encode lowerHex
    have hv : v.toNat < 256 := UInt8.toNat_lt v
    have h1 : v.toNat >>> 4 = v.toNat / 16 := by rw [Nat.shiftRight_eq_div_pow]
    have h2 : v.toNat &&& 0x0f = v.toNat % 16 := Nat.and_pow_two_sub_one_eq_mod v.toNat 4
    rw [h1, h2, hextable_getD _ (by omega), hextable_getD _ (Nat.mod_lt _ (by decide)), ih]

/-- For a key of at most 64 bytes the pad is the zero-extended key, xored. -/
theorem xorPad_of_le (key : Bytes) (x : UInt8) (h : key.length ≤ 64) :
    hmac.xorPad 64 key x = (key ++ List.replicate (64 - key.length) 0).map (fun b => b ^^^ x) := by
  unfold hmac.xorPad
  rw [List.take_of_length_le]
  rw [List.length_append, List.length_replicate]
  omega

/-- What `New`, `Write`, `Sum` of `crypto/hmac` compute over a fresh hash with
block size `bs` and digest function `cs`. -/
theorem hmac_Sum_mk (bs : Nat) (cs : Bytes → Bytes) (key text : Bytes) :
    ((hmac.New ⟨bs, cs, []⟩ key).Write text).Sum [] =
      cs (hmac.xorPad bs (if key.length > bs then cs key else key) 0x5c
        ++ cs (hmac.xorPad bs (if key.length > bs then cs key else key) 0x36 ++ text)) := by
  by_cases hk : key.length > bs
  · simp only [hmac.New, if_pos hk]
    rfl
  · simp only [hmac.New, if_neg hk]
    rfl

/-- The `crypto/hmac` object over SHA-256 computes the HMAC-SHA256 of RFC
2104. -/
theorem hmac_Sum_eq (key text : Bytes) :
    ((hmac.New sha256.New key).Write text).Sum [] = HMAC_SHA256 key text := by
  rw [show sha256.New = ⟨64, sha256.Sum256, []⟩ from rfl, hmac_Sum_mk]
  unfold HMAC_SHA256
  by_cases hk : 64 < key.length
  · have h32 : (sha256.Sum256 key).length ≤ 64 := by rw [Sum256_length]; decide
    simp only [gt_iff_lt, if_pos hk, xorPad_of_le _ _ h32]
  · have hle : key.length ≤ 64 := by omega
    simp only [gt_iff_lt, if_neg hk, xorPad_of_le _ _ hle]

/-- The body of `verifySignature` with its local variables substituted. -/
theorem verifySignature_def (P sig S : Bytes) :
    verifySignature P sig S =
      if !strings.HasPrefix sig (str "sha256=") then false
      else hmac.Equal (strings.TrimPrefix sig (str "sha256="))
        (hex.EncodeToString (((hmac.New sha256.New S).Write P).Sum [])) :=
  rfl

/-- The verifier accepts exactly the expected signature. -/
theorem verifySignature_eq_true_iff (P sig S : Bytes) :
    verifySignature P sig S = true ↔ sig = expectedSignature S P := by
  rw [verifySignature_def, hmac_Sum_eq, Encode_eq_lowerHex]
  unfold expectedSignature
  by_cases hp : strings.HasPrefix sig (str "sha256=") = true
  · obtain ⟨t, rfl⟩ := (HasPrefix_iff _ _).mp hp
    simp only [hp, Bool.not_true, Bool.false_eq_true, if_false, TrimPrefix_append, Equal_iff]
    constructor
    · rintro rfl; rfl
    · intro h; exact List.append_cancel_left h
  · have hn : ¬ str "sha256=" <+: sig := fun h => hp ((HasPrefix_iff _ _).mpr h)
    simp only [hp, Bool.not_false, if_true, Bool.false_eq_true, false_iff]
    rintro rfl
    exact hn (List.prefix_append _ _)

/-- The handler as a cascade of its five early returns. -/
theorem webhookHandler_def (secret : Bytes) (w : http.ResponseWriter) (r : http.Request) :
    webhookHandler secret w r =
      if r.Method != str "POST" then
        (http.Error w (str "Method not allowed") http.StatusMethodNotAllowed, [])
      else if r.Body.err.isSome then
        (http.Error w (str "Failed to read body") http.StatusBadRequest, [])
      else if !verifySignature r.Body.data (r.Header.Get (str "X-Hub-Signature-256")) secret then
        (http.Error w (str "Invalid signature") http.StatusUnauthorized,
          [Effect.log (str "Invalid signature")])
      else if r.Header.Get (str "X-GitHub-Event") != str "push" then
        ((w.WriteHeader http.StatusOK).Write (str "Ignored: not a push event"), [])
      else if !strings.Contains r.Body.data mainRefMarker then
        ((w.WriteHeader http.StatusOK).Write (str "Ignored: not main branch"), [])
      else
        ((w.WriteHeader http.StatusOK).Write (str "Deploying..."),
          [Effect.log (str "Received push to main, deploying..."),
           Effect.go (exec.Command deployScript)]) :=
  rfl

/-! ## Test vectors for the hash models -/

/-- FIPS 180-4 example: the digest of `abc` (one block). -/
theorem Sum256_abc :
    lowerHex (sha256.Sum256 (str "abc"))
      = str "ba7816bf8f01cfea414140de5dae2223b00361a396177a9cb410ff61f20015ad" := by
  decide!

/-- FIPS 180-4 example: a 56-byte message (two blocks). -/
theorem Sum256_two_blocks :
    lowerHex (sha256.Sum256 (str "abcdbcdecdefdefgefghfghighijhijkijkljklmklmnlmnomnopnopq"))
      = str "248d6a61d20638b8e5c026930c3e6039a33ce45964ff2167f6ecedd419db06c1" := by
  decide!

/-- RFC 4231, test case 2. -/
theorem HMAC_SHA256_rfc4231_case2 :
    lowerHex (HMAC_SHA256 (str "Jefe") (str "what do ya want for nothing?"))
      = str "5bdcc146bf60754e6a042426089575c75a003f089d2739839dec58b964ec3843" := by
  decide!

/-- RFC 4231, test case 6: a key longer than the block. -/
theorem HMAC_SHA256_rfc4231_case6 :
    lowerHex (HMAC_SHA256 (List.replicate 131 0xaa)
        (str "Test Using Larger Than Block-Size Key - Hash Key First"))
      = str "60e431591ee0b67f0d8a26aacbf5b77f8e0bc6213728c5140546040f0ee37f54" := by
  decide!

/-- The signature of the example body under `testsecret`, evaluated. -/
theorem expectedSignature_main : expectedSignature exampleSecret mainBody = mainSignature := by
  decide!

/-- Hex encoding doubles the length. -/
theorem lowerHex_length : ∀ b : Bytes, (lowerHex b).length = 2 * b.length
  | [] => rfl
  | v :: bs => by
    unfold lowerHex
    simp only [List.length_cons, lowerHex_length bs]
    omega

/-- An HMAC-SHA256 value has 32 bytes. -/
theorem HMAC_SHA256_length (S P : Bytes) : (HMAC_SHA256 S P).length = 32 := by
  unfold HMAC_SHA256
  exact Sum256_length _

/-- A correct signature has 7 + 64 = 71 bytes. -/
theorem expectedSignature_length (S P : Bytes) : (expectedSignature S P).length = 71 := by
  unfold expectedSignature
  rw [List.length_append, lowerHex_length, HMAC_SHA256_length, str_sha256]
  rfl

/-- No hex digit is the letter `s`. -/
theorem lowerHexDigit_ne_s : ∀ n, n < 16 → lowerHexDigit n ≠ 115 := by
  decide

/-- A hex encoding never starts with `sha256=`. -/
theorem lowerHex_no_sha256 (b : Bytes) : ¬ str "sha256=" <+: lowerHex b := by
  rw [str_sha256]
  cases b with
  | nil =>
    unfold lowerHex
    rintro ⟨t, ht⟩
    simp at ht
  | cons v bs =>
    unfold lowerHex
    rintro ⟨t, ht⟩
    simp only [List.cons_append] at ht
    injection ht with h1 _
    have hv : v.toNat < 256 := UInt8.toNat_lt v
    exact lowerHexDigit_ne_s (v.toNat / 16) (by omega) h1.symm

/-- Every string other than the expected signature is rejected. -/
theorem verifySignature_eq_false_of_ne (P sig S : Bytes) (h : sig ≠ expectedSignature S P) :
    verifySignature P sig S = false := by
  cases hv : verifySignature P sig S with
  | false => rfl
  | true => exact absurd ((verifySignature_eq_true_iff P sig S).mp hv) h

/-- Replacing the element at `i` by `repl` gives the list back only when
`repl` is that element alone. -/
theorem splice_eq_self_iff (e repl : Bytes) (i : Nat) (hi : i < e.length)
    (h : e.take i ++ repl ++ e.drop (i + 1) = e) : repl = [e.get ⟨i, hi⟩] := by
  have he : e.take i ++ [e.get ⟨i, hi⟩] ++ e.drop (i + 1) = e := by
    rw [List.append_assoc, List.singleton_append, List.get_eq_getElem,
      ← List.drop_eq_getElem_cons hi, List.take_append_drop]
  have h2 := h.trans he.symm
  exact List.append_cancel_left (List.append_cancel_right h2)

/-! ## The signature verifier -/

/-- C1: for every payload (the empty one included) and every secret, the
verifier accepts `"sha256="` followed by the lowercase hex encoding of the
HMAC-SHA256 of the payload under the secret. -/
theorem verifySignature_accepts_expected (P S : Bytes) :
    verifySignature P (str "sha256=" ++ lowerHex (HMAC_SHA256 S P)) S = true :=
  (verifySignature_eq_true_iff P _ S).mpr rfl

/-- Evaluation of C1 on the empty payload under the secret `testsecret`. -/
theorem verifySignature_accepts_expected_witness :
    str "sha256=" ++ lowerHex (HMAC_SHA256 exampleSecret [])
      = str "sha256=883a1369fa89dbc40b32496dbec4174276f9899e88cdfdbf1b6327c2ebc7ffcb"
    ∧ verifySignature [] (str "sha256=" ++ lowerHex (HMAC_SHA256 exampleSecret []))
        exampleSecret = true :=
  ⟨by decide!, verifySignature_accepts_expected [] exampleSecret⟩

/-- C2: take the correct signature of a payload and replace the character
at any one position (in the prefix or in the hex digits) by a different
character, given by its bytes `repl` (one byte for an ASCII character,
several for another UTF-8 character): the verifier rejects the result. -/
theorem verifySignature_rejects_one_changed_char (P S : Bytes) (i : Nat) (repl : Bytes)
    (hi : i < (expectedSignature S P).length)
    (hc : repl ≠ [(expectedSignature S P).get ⟨i, hi⟩]) :
    verifySignature P
      ((expectedSignature S P).take i ++ repl ++ (expectedSignature S P).drop (i + 1)) S
      = false :=
  verifySignature_eq_false_of_ne P _ S
    (fun h => hc (splice_eq_self_iff (expectedSignature S P) repl i hi h))

/-- Witness of C2 on the specification's example: the first hex digit `2`
(position 7) of the correct signature replaced by `3`. -/
theorem verifySignature_rejects_one_changed_char_witness :
    expectedSignature exampleSecret mainBody = mainSignature
    ∧ (expectedSignature exampleSecret mainBody).take 7 ++ str "3"
        ++ (expectedSignature exampleSecret mainBody).drop (7 + 1)
      = str "sha256=38146b03dff028de76db9565906717f0f852df1018420b32f14c65c9372b5f0a"
    ∧ verifySignature mainBody
        ((expectedSignature exampleSecret mainBody).take 7 ++ str "3"
          ++ (expectedSignature exampleSecret mainBody).drop (7 + 1)) exampleSecret = false :=
  ⟨by decide!, by decide!,
    verifySignature_rejects_one_changed_char mainBody exampleSecret 7 (str "3")
      (by decide!) (by decide!)⟩

/-- C3: a signature string that does not start with `sha256=` is rejected
whatever the payload and the secret; so are the empty string of a missing
header and the bare hex digest without the prefix. -/
theorem verifySignature_rejects_without_sha256 :
    (∀ P sig S : Bytes, ¬ str "sha256=" <+: sig → verifySignature P sig S = false)
    ∧ (∀ P S : Bytes, verifySignature P [] S = false)
    ∧ (∀ P S : Bytes, verifySignature P (lowerHex (HMAC_SHA256 S P)) S = false) := by
  have key : ∀ P sig S : Bytes, ¬ str "sha256=" <+: sig → verifySignature P sig S = false := by
    intro P sig S h
    apply verifySignature_eq_false_of_ne
    rintro rfl
    exact h (List.prefix_append _ _)
  refine ⟨key, fun P S => key P [] S ?_, fun P S => key P _ S (lowerHex_no_sha256 _)⟩
  rw [str_sha256]
  decide

/-- Witness of C3 on the specification's example: the bare hex digest of
the correct signature, and the correct signature with its `=` left out. -/
theorem verifySignature_rejects_without_sha256_witness :
    verifySignature mainBody
        (str "28146b03dff028de76db9565906717f0f852df1018420b32f14c65c9372b5f0a") exampleSecret
      = false
    ∧ verifySignature mainBody
        (str "sha25628146b03dff028de76db9565906717f0f852df1018420b32f14c65c9372b5f0a")
        exampleSecret = false :=
  ⟨verifySignature_rejects_without_sha256.1 _ _ _ (by decide!),
    verifySignature_rejects_without_sha256.1 _ _ _ (by decide!)⟩

/-- C10: the verifier accepts a signature string exactly when it is
`"sha256="` followed by the lowercase hex HMAC-SHA256 of the payload.  Hence
it rejects that string with bytes added before or after it (an extended
digest, surrounding whitespace, a doubled prefix), every proper initial part
of it (a truncated digest), and the upper-cased digest whenever upper-casing
changes it. -/
theorem verifySignature_iff_expected (P S : Bytes) :
    (∀ sig : Bytes, verifySignature P sig S = true ↔
        sig = str "sha256=" ++ lowerHex (HMAC_SHA256 S P))
    ∧ (∀ a b : Bytes, a ≠ [] ∨ b ≠ [] →
        verifySignature P (a ++ (str "sha256=" ++ lowerHex (HMAC_SHA256 S P)) ++ b) S = false)
    ∧ (∀ n : Nat, n < 71 →
        verifySignature P ((str "sha256=" ++ lowerHex (HMAC_SHA256 S P)).take n) S = false)
    ∧ (upperHex (HMAC_SHA256 S P) ≠ lowerHex (HMAC_SHA256 S P) →
        verifySignature P (str "sha256=" ++ upperHex (HMAC_SHA256 S P)) S = false) := by
  have hlen := expectedSignature_length S P
  unfold expectedSignature at hlen
  refine ⟨fun sig => verifySignature_eq_true_iff P sig S, ?_, ?_, ?_⟩
  · intro a b hab
    apply verifySignature_eq_false_of_ne
    intro h
    have hl := congrArg List.length h
    unfold expectedSignature at hl
    simp only [List.length_append] at hl hlen
    have ha : a.length = 0 := by omega
    have hb : b.length = 0 := by omega
    rcases hab with hab | hab
    · exact hab (List.length_eq_zero.mp ha)
    · exact hab (List.length_eq_zero.mp hb)
  · intro n hn
    apply verifySignature_eq_false_of_ne
    intro h
    have hl := congrArg List.length h
    unfold expectedSignature at hl
    rw [List.length_take, hlen] at hl
    omega
  · intro hne
    apply verifySignature_eq_false_of_ne
    intro h
    unfold expectedSignature at h
    exact hne (List.append_cancel_left h)

/-- Witness of C10 on the specification's example: the correct signature
is accepted; its upper-cased digest, its digest cut to 63 digits and the
signature wrapped in blanks are rejected. -/
theorem verifySignature_iff_expected_witness :
    verifySignature mainBody mainSignature exampleSecret = true
    ∧ verifySignature mainBody
        (str "sha256=28146B03DFF028DE76DB9565906717F0F852DF1018420B32F14C65C9372B5F0A")
        exampleSecret = false
    ∧ verifySignature mainBody
        (str "sha256=28146b03dff028de76db9565906717f0f852df1018420b32f14c65c9372b5f0")
        exampleSecret = false
    ∧ verifySignature mainBody
        (str " sha256=28146b03dff028de76db9565906717f0f852df1018420b32f14c65c9372b5f0a ")
        exampleSecret = false :=
  ⟨((verifySignature_iff_expected mainBody exampleSecret).1 mainSignature).mpr (by decide!),
    by decide!, by decide!, by decide!⟩

/-! ## The handler of `/webhook` -/

/-- C4: a `POST` whose body is read without error, whose
`X-Hub-Signature-256` header passes `verifySignature` under the configured
secret, whose `X-GitHub-Event` header is exactly `push` and whose body
contains the marker `"ref":"refs/heads/main"` is answered with status 200
and body `Deploying...`, and the deploy script is launched exactly once. -/
theorem webhookHandler_deploys (secret : Bytes) (r : http.Request)
    (hM : r.Method = str "POST")
    (hB : r.Body.err = none)
    (hS : verifySignature r.Body.data (r.Header.Get (str "X-Hub-Signature-256")) secret = true)
    (hE : r.Header.Get (str "X-GitHub-Event") = str "push")
    (hR : mainRefMarker <:+: r.Body.data) :
    (webhookHandler secret http.ResponseWriter.fresh r).1.status = 200
    ∧ (webhookHandler secret http.ResponseWriter.fresh r).1.body = str "Deploying..."
    ∧ launched (webhookHandler secret http.ResponseWriter.fresh r).2
        = [exec.Command deployScript] := by
  have hC : strings.Contains r.Body.data mainRefMarker = true := (Contains_iff _ _).mpr hR
  rw [webhookHandler_def]
  simp only [hM, hB, hS, hE, hC, bne_self_eq_false, Bool.false_eq_true, if_false,
    Option.isSome_none, Bool.not_true]
  exact ⟨rfl, rfl, rfl⟩

/-- Witness of C4: the specification's example, secret `testsecret` and
body `{"ref":"refs/heads/main"}`. -/
theorem webhookHandler_deploys_witness :
    verifySignature mainBody mainSignature exampleSecret = true
    ∧ (webhookHandler exampleSecret http.ResponseWriter.fresh mainPush).1.status = 200
    ∧ (webhookHandler exampleSecret http.ResponseWriter.fresh mainPush).1.body
        = str "Deploying..."
    ∧ launched (webhookHandler exampleSecret http.ResponseWriter.fresh mainPush).2
        = [exec.Command deployScript] :=
  ⟨by decide!,
    webhookHandler_deploys exampleSecret mainPush (by decide!) rfl (by decide!) (by decide!)
      (by decide!)⟩

/-- C5: a `POST` whose body is read without error and whose signature
header fails `verifySignature` is answered with status 401 and launches
nothing, whatever its event header and body. -/
theorem webhookHandler_unauthorized (secret : Bytes) (r : http.Request)
    (hM : r.Method = str "POST")
    (hB : r.Body.err = none)
    (hS : verifySignature r.Body.data (r.Header.Get (str "X-Hub-Signature-256")) secret
      = false) :
    (webhookHandler secret http.ResponseWriter.fresh r).1.status = 401
    ∧ launched (webhookHandler secret http.ResponseWriter.fresh r).2 = [] := by
  rw [webhookHandler_def]
  simp only [hM, hB, hS, bne_self_eq_false, Bool.false_eq_true, if_false, Option.isSome_none,
    Bool.not_false, if_true]
  exact ⟨rfl, rfl⟩

/-- Witness of C5: pushes to main (event `push`, marker in the body) with
no signature header, with the signature of another body, and with the right
signature checked against another secret. -/
theorem webhookHandler_unauthorized_witness :
    ((webhookHandler exampleSecret http.ResponseWriter.fresh unsignedRequest).1.status = 401
      ∧ launched (webhookHandler exampleSecret http.ResponseWriter.fresh unsignedRequest).2
          = [])
    ∧ ((webhookHandler exampleSecret http.ResponseWriter.fresh wrongSignature).1.status = 401
      ∧ launched (webhookHandler exampleSecret http.ResponseWriter.fresh wrongSignature).2
          = [])
    ∧ ((webhookHandler (str "othersecret") http.ResponseWriter.fresh mainPush).1.status = 401
      ∧ launched (webhookHandler (str "othersecret") http.ResponseWriter.fresh mainPush).2
          = []) :=
  ⟨webhookHandler_unauthorized exampleSecret unsignedRequest (by decide!) rfl (by decide!),
    webhookHandler_unauthorized exampleSecret wrongSignature (by decide!) rfl (by decide!),
    webhookHandler_unauthorized (str "othersecret") mainPush (by decide!) rfl (by decide!)⟩

/-- C6: a request whose method is not `POST` is answered with status 405
and launches nothing, whatever its headers and body; the method is checked
before the signature. -/
theorem webhookHandler_method_not_allowed (secret : Bytes) (r : http.Request)
    (hM : r.Method ≠ str "POST") :
    (webhookHandler secret http.ResponseWriter.fresh r).1.status = 405
    ∧ launched (webhookHandler secret http.ResponseWriter.fresh r).2 = [] := by
  have hne : (r.Method != str "POST") = true := bne_iff_ne.mpr hM
  rw [webhookHandler_def]
  simp only [hne, if_true]
  exact ⟨rfl, rfl⟩

/-- Witness of C6: the correctly signed push to main of the specification's
example, sent with `GET`. -/
theorem webhookHandler_method_not_allowed_witness :
    verifySignature getRequest.Body.data (getRequest.Header.Get (str "X-Hub-Signature-256"))
        exampleSecret = true
    ∧ getRequest.Header.Get (str "X-GitHub-Event") = str "push"
    ∧ mainRefMarker <:+: getRequest.Body.data
    ∧ (webhookHandler exampleSecret http.ResponseWriter.fresh getRequest).1.status = 405
    ∧ launched (webhookHandler exampleSecret http.ResponseWriter.fresh getRequest).2 = [] :=
  ⟨by decide!, by decide!, by decide!,
    webhookHandler_method_not_allowed exampleSecret getRequest (by decide!)⟩

/-- C7 as worded fails when the body cannot be read.  `brokenReadEvent` is a
`POST` whose signature header passes `verifySignature` on the bytes
delivered and whose event header is `Push`, yet the handler answers 400
`Failed to read body`, not 200 `Ignored: not a push event`: the read
error is tested before the signature and the event header. -/
theorem webhookHandler_ignores_other_events_counterexample :
    brokenReadEvent.Method = str "POST"
    ∧ verifySignature brokenReadEvent.Body.data
        (brokenReadEvent.Header.Get (str "X-Hub-Signature-256")) exampleSecret = true
    ∧ brokenReadEvent.Header.Get (str "X-GitHub-Event") ≠ str "push"
    ∧ (webhookHandler exampleSecret http.ResponseWriter.fresh brokenReadEvent).1.status = 400
    ∧ (webhookHandler exampleSecret http.ResponseWriter.fresh brokenReadEvent).1.body
        = str "Failed to read body\n"
    ∧ ¬ ((webhookHandler exampleSecret http.ResponseWriter.fresh brokenReadEvent).1.status = 200
        ∧ (webhookHandler exampleSecret http.ResponseWriter.fresh brokenReadEvent).1.body
          = str "Ignored: not a push event") := by
  decide!

/-- C7, amended: a `POST` whose body is read without error, whose signature
header passes `verifySignature` and whose `X-GitHub-Event` header value is
not exactly `push` is answered with status 200 and body
`Ignored: not a push event` and launches nothing, whether or not the body
contains the main marker. -/
theorem webhookHandler_ignores_other_events (secret : Bytes) (r : http.Request)
    (hM : r.Method = str "POST")
    (hB : r.Body.err = none)
    (hS : verifySignature r.Body.data (r.Header.Get (str "X-Hub-Signature-256")) secret = true)
    (hE : r.Header.Get (str "X-GitHub-Event") ≠ str "push") :
    (webhookHandler secret http.ResponseWriter.fresh r).1.status = 200
    ∧ (webhookHandler secret http.ResponseWriter.fresh r).1.body
        = str "Ignored: not a push event"
    ∧ launched (webhookHandler secret http.ResponseWriter.fresh r).2 = [] := by
  have hne : (r.Header.Get (str "X-GitHub-Event") != str "push") = true := bne_iff_ne.mpr hE
  rw [webhookHandler_def]
  simp only [hM, hB, hS, hne, bne_self_eq_false, Bool.false_eq_true, if_false,
    Option.isSome_none, Bool.not_true, if_true]
  exact ⟨rfl, rfl, rfl⟩

/-- Witness of the amended C7: the signed push to main with the event header `Push`,
and with no event header at all. -/
theorem webhookHandler_ignores_other_events_witness :
    ((webhookHandler exampleSecret http.ResponseWriter.fresh capitalisedEvent).1.status = 200
      ∧ (webhookHandler exampleSecret http.ResponseWriter.fresh capitalisedEvent).1.body
          = str "Ignored: not a push event"
      ∧ launched (webhookHandler exampleSecret http.ResponseWriter.fresh capitalisedEvent).2
          = [])
    ∧ ((webhookHandler exampleSecret http.ResponseWriter.fresh noEventRequest).1.status = 200
      ∧ (webhookHandler exampleSecret http.ResponseWriter.fresh noEventRequest).1.body
          = str "Ignored: not a push event"
      ∧ launched (webhookHandler exampleSecret http.ResponseWriter.fresh noEventRequest).2
          = []) :=
  ⟨webhookHandler_ignores_other_events exampleSecret capitalisedEvent (by decide!) rfl
      (by decide!) (by decide!),
    webhookHandler_ignores_other_events exampleSecret noEventRequest (by decide!) rfl
      (by decide!) (by decide!)⟩

/-- C8 as worded fails when the body cannot be read.  `brokenReadBranch` is
a `POST` with event `push` whose signature header passes `verifySignature`
on the bytes delivered and whose body lacks the marker, yet the handler
answers 400 `Failed to read body`, not 200 `Ignored: not main branch`. -/
theorem webhookHandler_ignores_other_branches_counterexample :
    brokenReadBranch.Method = str "POST"
    ∧ verifySignature brokenReadBranch.Body.data
        (brokenReadBranch.Header.Get (str "X-Hub-Signature-256")) exampleSecret = true
    ∧ brokenReadBranch.Header.Get (str "X-GitHub-Event") = str "push"
    ∧ ¬ mainRefMarker <:+: brokenReadBranch.Body.data
    ∧ (webhookHandler exampleSecret http.ResponseWriter.fresh brokenReadBranch).1.status = 400
    ∧ (webhookHandler exampleSecret http.ResponseWriter.fresh brokenReadBranch).1.body
        = str "Failed to read body\n"
    ∧ ¬ ((webhookHandler exampleSecret http.ResponseWriter.fresh brokenReadBranch).1.status = 200
        ∧ (webhookHandler exampleSecret http.ResponseWriter.fresh brokenReadBranch).1.body
          = str "Ignored: not main branch") := by
  decide!

/-- C8, amended: a `POST` whose body is read without error, whose signature
header passes `verifySignature`, whose event is `push` and whose body does
not contain the marker `"ref":"refs/heads/main"` is answered with status
200 and body `Ignored: not main branch` and launches nothing. -/
theorem webhookHandler_ignores_other_branches (secret : Bytes) (r : http.Request)
    (hM : r.Method = str "POST")
    (hB : r.Body.err = none)
    (hS : verifySignature r.Body.data (r.Header.Get (str "X-Hub-Signature-256")) secret = true)
    (hE : r.Header.Get (str "X-GitHub-Event") = str "push")
    (hR : ¬ mainRefMarker <:+: r.Body.data) :
    (webhookHandler secret http.ResponseWriter.fresh r).1.status = 200
    ∧ (webhookHandler secret http.ResponseWriter.fresh r).1.body
        = str "Ignored: not main branch"
    ∧ launched (webhookHandler secret http.ResponseWriter.fresh r).2 = [] := by
  have hC : strings.Contains r.Body.data mainRefMarker = false := by
    cases h : strings.Contains r.Body.data mainRefMarker with
    | false => rfl
    | true => exact absurd ((Contains_iff _ _).mp h) hR
  rw [webhookHandler_def]
  simp only [hM, hB, hS, hE, hC, bne_self_eq_false, Bool.false_eq_true, if_false,
    Option.isSome_none, Bool.not_true, Bool.not_false, if_true]
  exact ⟨rfl, rfl, rfl⟩

/-- Witness of the amended C8: signed pushes whose body names `refs/heads/mainline`, or
writes the field with a space after the colon. -/
theorem webhookHandler_ignores_other_branches_witness :
    ((webhookHandler exampleSecret http.ResponseWriter.fresh
          (postRequest (str "POST") mainlineSignature (str "push") mainlineBody)).1.status = 200
      ∧ (webhookHandler exampleSecret http.ResponseWriter.fresh
          (postRequest (str "POST") mainlineSignature (str "push") mainlineBody)).1.body
          = str "Ignored: not main branch"
      ∧ launched (webhookHandler exampleSecret http.ResponseWriter.fresh
          (postRequest (str "POST") mainlineSignature (str "push") mainlineBody)).2 = [])
    ∧ ((webhookHandler exampleSecret http.ResponseWriter.fresh
          (postRequest (str "POST") spacedSignature (str "push") spacedBody)).1.status = 200
      ∧ (webhookHandler exampleSecret http.ResponseWriter.fresh
          (postRequest (str "POST") spacedSignature (str "push") spacedBody)).1.body
          = str "Ignored: not main branch"
      ∧ launched (webhookHandler exampleSecret http.ResponseWriter.fresh
          (postRequest (str "POST") spacedSignature (str "push") spacedBody)).2 = []) :=
  ⟨webhookHandler_ignores_other_branches exampleSecret _ (by decide!) rfl (by decide!)
      (by decide!) (by decide!),
    webhookHandler_ignores_other_branches exampleSecret _ (by decide!) rfl (by decide!)
      (by decide!) (by decide!)⟩

/-- C9: the branch filter has a false match.  The correctly signed push
event `nestedPush` has the body
`{"ref":"refs/heads/dev","base":{"ref":"refs/heads/main"}}`: its top-level
`ref` names `dev`, the marker occurs only inside the member `base`, and the
handler answers 200 `Deploying...` and launches the deploy script. -/
theorem webhookHandler_false_match :
    nestedPush.Method = str "POST"
    ∧ nestedPush.Body.err = none
    ∧ nestedPush.Body.data
        = str "\x7b\"ref\":\"refs/heads/dev\",\"base\":\x7b" ++ mainRefMarker ++ str "\x7d\x7d"
    ∧ verifySignature nestedPush.Body.data (nestedPush.Header.Get (str "X-Hub-Signature-256"))
        exampleSecret = true
    ∧ nestedPush.Header.Get (str "X-GitHub-Event") = str "push"
    ∧ (webhookHandler exampleSecret http.ResponseWriter.fresh nestedPush).1.status = 200
    ∧ (webhookHandler exampleSecret http.ResponseWriter.fresh nestedPush).1.body
        = str "Deploying..."
    ∧ launched (webhookHandler exampleSecret http.ResponseWriter.fresh nestedPush).2
        = [exec.Command deployScript] := by
  decide!

end Webhook
